import Mathlib

/-!
Shallow embedding of the alert evaluation-and-dispatch core of `src/v12.py`
(`send_telegram_msg`, `fetch_data` indicator computation, `check_custom_alerts`,
`get_signal`, and the polling loop's repeated invocation of `get_signal`).
Prices, percentages and volumes are modelled as exact rationals; pandas series
are modelled as Lean lists; `NaN` cells produced by `rolling(20).mean()` are
modelled as `none`.  Python strings are modelled as `String` / `List Char`.
-/

namespace TrendV12

/-! ### Fixed-point formatting (Python `{:.2f}`, `{:+.2f}`, `{:.1f}`) -/

/-- Floor of a rational, computed by floor-division of numerator by
denominator (kept executable by kernel reduction). -/
def qfloor (x : ℚ) : ℤ := Int.fdiv x.num (x.den : ℤ)

/-- Round a rational to the nearest integer, ties to even (Python's float
formatting rounds half to even). -/
def roundHalfEven (x : ℚ) : ℤ :=
  let f : ℤ := qfloor x
  let frac : ℚ := x - (f : ℚ)
  if frac < 1/2 then f
  else if 1/2 < frac then f + 1
  else if f % 2 = 0 then f else f + 1

/-- Left-pad a digit string with zeros to width `d`. -/
def padZ (d : ℕ) (s : String) : String :=
  String.mk (List.replicate (d - s.length) '0') ++ s

/-- Python `format(x, '.df')` on an exact rational: fixed-point with `d`
decimal places, round half to even. -/
def fmtFixed (d : ℕ) (x : ℚ) : String :=
  let n : ℤ := roundHalfEven (x * (10 : ℚ) ^ d)
  let sign : String := if n < 0 then "-" else ""
  let m : ℕ := n.natAbs
  if d = 0 then sign ++ Nat.repr m
  else sign ++ Nat.repr (m / 10 ^ d) ++ "." ++ padZ d (Nat.repr (m % 10 ^ d))

/-- Python `format(x, '+.df')`: as `fmtFixed` but with an explicit `+` sign on
non-negative values. -/
def fmtSignedFixed (d : ℕ) (x : ℚ) : String :=
  if roundHalfEven (x * (10 : ℚ) ^ d) < 0 then fmtFixed d x
  else "+" ++ fmtFixed d x

/-! ### `send_telegram_msg` (v12.py lines 28-43): the message text built and
handed to the HTTP transport.  The five concatenated pieces mirror the five
f-string lines of the source. -/

/-- The notification text built by `send_telegram_msg(sym, action, reason,
price, p_change, v_ratio)` before it is passed to the Telegram API. -/
def send_telegram_msg_text (sym action reason : String)
    (price p_change v_ratio : ℚ) : String :=
  ("🔔 【" ++ action ++ "預警】: " ++ sym ++ "\n") ++
  ("現價: " ++ fmtFixed 2 price ++ " (" ++ fmtSignedFixed 2 p_change ++ "%)\n") ++
  ("量比: " ++ fmtFixed 1 v_ratio ++ "x\n") ++
  ("--------------------\n") ++
  ("📋 判定根據:\n" ++ reason)

/-- The message template as the specification document words it (§6): no
leading bell emoji, no 【】 brackets around the action label, no 📋 before the
reason header.  Kept for comparison with `send_telegram_msg_text`. -/
def claimedTemplate (sym action reason : String)
    (price p_change v_ratio : ℚ) : String :=
  action ++ "預警: " ++ sym ++ "\n現價: " ++ fmtFixed 2 price ++ " (" ++
  fmtSignedFixed 2 p_change ++ "%)\n量比: " ++ fmtFixed 1 v_ratio ++
  "x\n--------------------\n判定根據:\n" ++ reason

/-! ### EMA and indicator computation (`fetch_data`, v12.py lines 46-64)

`close.ewm(span=s, adjust=False).mean()` is pandas' unadjusted exponential
moving average: seeded with the first value, then
`y[i] = y[i-1]*(1-α) + x[i]*α` with `α = 2/(s+1)`. -/

/-- One step of the unadjusted EMA recursion. -/
def emaStep (a prev x : ℚ) : ℚ := prev * (1 - a) + x * a

/-- Tail of the EMA recursion given the previous smoothed value. -/
def emaFrom (a prev : ℚ) : List ℚ → List ℚ
  | [] => []
  | x :: xs => emaStep a prev x :: emaFrom a (emaStep a prev x) xs

/-- `series.ewm(span=span, adjust=False).mean()`: seeded by the first value. -/
def ema (span : ℕ) (xs : List ℚ) : List ℚ :=
  match xs with
  | [] => []
  | x :: rest => x :: emaFrom ((2 : ℚ) / ((span : ℚ) + 1)) x rest

/-- `df['MACD'] = ema12 - ema26` (elementwise). -/
def macdOf (closes : List ℚ) : List ℚ :=
  List.zipWith (fun a b => a - b) (ema 12 closes) (ema 26 closes)

/-- `df['Sig'] = df['MACD'].ewm(span=9, adjust=False).mean()`. -/
def sigOf (closes : List ℚ) : List ℚ := ema 9 (macdOf closes)

/-- `df['Hist'] = df['MACD'] - df['Sig']` (elementwise). -/
def histOf (closes : List ℚ) : List ℚ :=
  List.zipWith (fun a b => a - b) (macdOf closes) (sigOf closes)

/-- `series.rolling(window=w).mean()`: `NaN` (here `none`) until a full window
of `w` values is available, then the mean of the trailing `w` values. -/
def rollingMean (w : ℕ) (xs : List ℚ) : List (Option ℚ) :=
  (List.range xs.length).map (fun i =>
    if i + 1 < w then none
    else some ((((xs.take (i + 1)).drop (i + 1 - w)).sum) / (w : ℚ)))

/-- One OHLCV bar as downloaded by `fetch_data` (the open is unused by the
signal core). -/
structure Bar where
  high : ℚ
  low : ℚ
  close : ℚ
  volume : ℚ
deriving DecidableEq

/-- Default bar (used only as an out-of-range `getD` fallback). -/
def bar0 : Bar := ⟨0, 0, 0, 0⟩

/-- One row of the dataframe returned by `fetch_data`: the bar plus the
derived indicator columns. -/
structure Row where
  high : ℚ
  low : ℚ
  close : ℚ
  volume : ℚ
  ema20 : ℚ
  ema60 : ℚ
  ema200 : ℚ
  volAvg : Option ℚ
  macd : ℚ
  sig : ℚ
  hist : ℚ
deriving DecidableEq

/-- Default row (used only as an out-of-range `getD` fallback). -/
def row0 : Row := ⟨0, 0, 0, 0, 0, 0, 0, none, 0, 0, 0⟩

/-- Row `i` of the dataframe assembled by `fetch_data`. -/
def rowAt (bars : List Bar) (i : ℕ) : Row :=
  { high := (bars.getD i bar0).high
    low := (bars.getD i bar0).low
    close := (bars.getD i bar0).close
    volume := (bars.getD i bar0).volume
    ema20 := (ema 20 (bars.map Bar.close)).getD i 0
    ema60 := (ema 60 (bars.map Bar.close)).getD i 0
    ema200 := (ema 200 (bars.map Bar.close)).getD i 0
    volAvg := (rollingMean 20 (bars.map Bar.volume)).getD i none
    macd := (macdOf (bars.map Bar.close)).getD i 0
    sig := (sigOf (bars.map Bar.close)).getD i 0
    hist := (histOf (bars.map Bar.close)).getD i 0 }

/-- `fetch_data` (v12.py lines 46-64), indicator part: the downloaded bars
enriched with EMA20/60/200, the 20-bar rolling volume average, and
MACD/signal/histogram columns. -/
def fetch_data (bars : List Bar) : List Row :=
  (List.range bars.length).map (rowAt bars)

/-! ### `check_custom_alerts` (v12.py lines 67-81)

The entry string is split on commas and newlines, each piece is stripped and
uppercased, and `re.search(rf"{sym}\s*([><]|升穿|跌穿)\s*(\d+\.?\d*)", a)` is
run on it: an unanchored search for the literal ticker followed by optional
whitespace, an operator, optional whitespace and a decimal number.  The
ticker is interpolated verbatim (the symbols used here contain no regex
metacharacters), `upper()` is ASCII case-mapping on the characters involved. -/

/-- The four operators accepted by the alert grammar. -/
inductive AlertOp where
  | gt
  | lt
  | riseThru
  | fallThru
deriving DecidableEq

/-- Match a literal character sequence, returning the remaining input. -/
def dropLit : List Char → List Char → Option (List Char)
  | [], s => some s
  | _ :: _, [] => none
  | c :: cs, d :: ds => if c = d then dropLit cs ds else none

/-- The operator alternation `[><]|升穿|跌穿`. -/
def matchOp (s : List Char) : Option (AlertOp × List Char) :=
  match dropLit ['>'] s with
  | some r => some (AlertOp.gt, r)
  | none =>
    match dropLit ['<'] s with
    | some r => some (AlertOp.lt, r)
    | none =>
      match dropLit ['升', '穿'] s with
      | some r => some (AlertOp.riseThru, r)
      | none =>
        match dropLit ['跌', '穿'] s with
        | some r => some (AlertOp.fallThru, r)
        | none => none

/-- Decimal value of a digit string. -/
def digitsVal (ds : List Char) : ℕ :=
  ds.foldl (fun a c => a * 10 + (c.toNat - 48)) 0

/-- The number pattern `\d+\.?\d*` followed by Python `float` conversion. -/
def matchNum (s : List Char) : Option (ℚ × List Char) :=
  let intDigits := s.takeWhile Char.isDigit
  let rest := s.dropWhile Char.isDigit
  if intDigits.isEmpty then none
  else
    match rest with
    | '.' :: r2 =>
      some ((digitsVal intDigits : ℚ) +
              (digitsVal (r2.takeWhile Char.isDigit) : ℚ) /
                (10 : ℚ) ^ (r2.takeWhile Char.isDigit).length,
            r2.dropWhile Char.isDigit)
    | _ => some ((digitsVal intDigits : ℚ), rest)

/-- Attempt the whole pattern `sym \s* op \s* number` at the start of `s`. -/
def matchPatAt (sym s : List Char) : Option (AlertOp × ℚ) :=
  match dropLit sym s with
  | none => none
  | some r1 =>
    match matchOp (r1.dropWhile Char.isWhitespace) with
    | none => none
    | some (op, r3) =>
      match matchNum (r3.dropWhile Char.isWhitespace) with
      | none => none
      | some (t, _) => some (op, t)

/-- `re.search`: try the pattern at every start position, leftmost first. -/
def searchPat (sym : List Char) : List Char → Option (AlertOp × ℚ)
  | [] => matchPatAt sym []
  | c :: cs =>
    match matchPatAt sym (c :: cs) with
    | some x => some x
    | none => searchPat sym cs

/-- Python `str.strip()`: drop whitespace from both ends. -/
def stripChars (l : List Char) : List Char :=
  ((l.dropWhile Char.isWhitespace).reverse.dropWhile Char.isWhitespace).reverse

/-- Python `str.upper()` (ASCII case mapping). -/
def upperChars (l : List Char) : List Char := l.map Char.toUpper

/-- `re.split(r'[,\n]', alert_str)`: split on commas and newlines, keeping
empty pieces. -/
def splitEntries : List Char → List (List Char)
  | [] => [[]]
  | c :: cs =>
    let r := splitEntries cs
    if c = ',' ∨ c = '\n' then [] :: r
    else
      match r with
      | [] => [[c]]
      | h :: t => (c :: h) :: t

/-- Evaluate one entry of the alert string for ticker `sym` at `price`:
strip and uppercase, skip if empty, search for the pattern, and compare the
price against the target with inclusive bounds.  Returns the reason string on
a hit. -/
def entryCheck (sym : List Char) (price : ℚ) (aRaw : List Char) :
    Option String :=
  let a := upperChars (stripChars aRaw)
  if a.isEmpty then none
  else
    match searchPat sym a with
    | none => none
    | some (op, target) =>
      if ((op = AlertOp.gt ∨ op = AlertOp.riseThru) ∧ target ≤ price) ∨
         ((op = AlertOp.lt ∨ op = AlertOp.fallThru) ∧ price ≤ target) then
        some ("🎯 自定義價格預警: " ++ String.mk a ++ " (現價:" ++
              fmtFixed 2 price ++ ")")
      else none

/-- The `for a in alerts` loop body: return on the first hit. -/
def checkLoop (sym : List Char) (price : ℚ) :
    List (List Char) → Bool × String
  | [] => (false, "")
  | a :: rest =>
    match entryCheck sym price a with
    | some r => (true, r)
    | none => checkLoop sym price rest

/-- `check_custom_alerts(sym, price, alert_str)` (v12.py lines 67-81). -/
def check_custom_alerts (sym : List Char) (price : ℚ)
    (alert_str : List Char) : Bool × String :=
  checkLoop sym price (splitEntries alert_str)

/-! ### `get_signal` (v12.py lines 84-152) -/

/-- `df.iloc[-1]`. -/
def lastRow (df : List Row) : Row := df.getD (df.length - 1) row0

/-- `df.iloc[-2]`. -/
def prevRow (df : List Row) : Row := df.getD (df.length - 2) row0

/-- `price = float(last['Close'])`. -/
def priceOf (df : List Row) : ℚ := (lastRow df).close

/-- `p_change = ((price - prev.Close) / prev.Close) * 100`. -/
def pChangeOf (df : List Row) : ℚ :=
  ((priceOf df - (prevRow df).close) / (prevRow df).close) * 100

/-- `v_ratio = Volume / Vol_Avg if Vol_Avg > 0 else 1`; a `NaN` average
(`none`, fewer than 20 bars) fails the `> 0` test exactly as in pandas. -/
def vRatioOf (vol : ℚ) (avg : Option ℚ) : ℚ :=
  match avg with
  | some a => if 0 < a then vol / a else 1
  | none => 1

/-- The volume ratio `get_signal` computes on a dataframe. -/
def vRatioDf (df : List Row) : ℚ :=
  vRatioOf (lastRow df).volume (lastRow df).volAvg

/-- `is_bull_trend = price > EMA200 and EMA20 > EMA60`. -/
def isBullTrend (df : List Row) : Bool :=
  decide ((lastRow df).ema200 < priceOf df) &&
  decide ((lastRow df).ema60 < (lastRow df).ema20)

/-- `is_bear_trend = price < EMA200 and EMA20 < EMA60`. -/
def isBearTrend (df : List Row) : Bool :=
  decide (priceOf df < (lastRow df).ema200) &&
  decide ((lastRow df).ema20 < (lastRow df).ema60)

/-- `base_bull = is_bull_trend and p_change >= p_limit and v_ratio >= v_limit`. -/
def baseBull (df : List Row) (p_limit v_limit : ℚ) : Bool :=
  isBullTrend df && decide (p_limit ≤ pChangeOf df) &&
  decide (v_limit ≤ vRatioDf df)

/-- `base_bear = is_bear_trend and p_change <= -p_limit and v_ratio >= v_limit`. -/
def baseBear (df : List Row) (p_limit v_limit : ℚ) : Bool :=
  isBearTrend df && decide (pChangeOf df ≤ -p_limit) &&
  decide (v_limit ≤ vRatioDf df)

/-- Maximum of a list of rationals (`Series.max()` on a non-empty window). -/
def maxQ : List ℚ → ℚ
  | [] => 0
  | x :: xs => xs.foldl max x

/-- Minimum of a list of rationals (`Series.min()` on a non-empty window). -/
def minQ : List ℚ → ℚ
  | [] => 0
  | x :: xs => xs.foldl min x

/-- `df.iloc[-6:-1]`: the five rows before the latest one. -/
def breakWindow (df : List Row) : List Row :=
  (df.drop (df.length - 6)).take 5

/-- `is_break_high` (false unless `use_breakout`). -/
def isBreakHigh (df : List Row) (use_breakout : Bool) : Bool :=
  use_breakout && decide (maxQ ((breakWindow df).map Row.high) < priceOf df)

/-- `is_break_low` (false unless `use_breakout`). -/
def isBreakLow (df : List Row) (use_breakout : Bool) : Bool :=
  use_breakout && decide (priceOf df < minQ ((breakWindow df).map Row.low))

/-- `hist_window = df['Hist'].iloc[-8:].values`. -/
def histWindowOf (df : List Row) : List ℚ :=
  (df.map Row.hist).drop (df.length - 8)

/-- `all(x < 0 for x in hist_window[:-1]) and hist_window[-1] > 0`. -/
def macdBullFlip (w : List ℚ) : Bool :=
  w.dropLast.all (fun x => decide (x < 0)) && decide (0 < w.getLastD 0)

/-- `all(x > 0 for x in hist_window[:-1]) and hist_window[-1] < 0`. -/
def macdBearFlip (w : List ℚ) : Bool :=
  w.dropLast.all (fun x => decide (0 < x)) && decide (w.getLastD 0 < 0)

/-- The `(macd_bull_flip, macd_bear_flip)` pair, guarded as in the source by
`use_macd_flip and len(df) >= 8`. -/
def macdFlips (df : List Row) (use_macd_flip : Bool) : Bool × Bool :=
  if use_macd_flip && decide (8 ≤ df.length) then
    (macdBullFlip (histWindowOf df), macdBearFlip (histWindowOf df))
  else (false, false)

/-- The guard of the bullish aggregation branch (v12.py line 124). -/
def bullTrigger (df : List Row) (p v : ℚ) (bo mf : Bool) : Bool :=
  baseBull df p v || (bo && isBreakHigh df bo) || (macdFlips df mf).1

/-- The guard of the bearish aggregation branch (v12.py line 132). -/
def bearTrigger (df : List Row) (p v : ℚ) (bo mf : Bool) : Bool :=
  baseBear df p v || (bo && isBreakLow df bo) || (macdFlips df mf).2

/-- The mutable quadruple `(trigger_alert, action_type, card_style, reasons)`
after the aggregation block (v12.py lines 93-137). -/
structure AggOut where
  trigger : Bool
  action : String
  card : String
  reasons : List String
deriving DecidableEq

/-- Aggregation of evaluator verdicts: the custom hit seeds the state
(v12.py lines 98-102), then the bullish branch and the bearish branch
overwrite `trigger/action/card` and append their reason fragments
(lines 124-137). -/
def aggStep (hit : Bool) (creason : String) (pch : ℚ) (bo : Bool)
    (bB bH mB bR bL mS : Bool) : AggOut :=
  let reasons0 : List String := if hit then [creason] else []
  if bB || (bo && bH) || mB then
    { trigger := true, action := "🚀 強勢做多", card := "blink-bull"
      reasons := reasons0 ++ (if bB then ["✅ 趨勢量價達標"] else []) ++
        (if bH then ["🔥 突破前5K高點"] else []) ++
        (if mB then ["🌈 MACD: 7負轉1正"] else []) }
  else if bR || (bo && bL) || mS then
    { trigger := true, action := "🔻 強勢做空", card := "blink-bear"
      reasons := reasons0 ++ (if bR then ["❌ 趨勢量價達標"] else []) ++
        (if bL then ["📉 跌破前5K低點"] else []) ++
        (if mS then ["Waves MACD: 7正轉1負"] else []) }
  else
    { trigger := hit
      action := if hit then "🎯 價格觸達" else ""
      card := if hit then (if 0 < pch then "blink-bull" else "blink-bear")
              else ""
      reasons := reasons0 }

/-- The value `get_signal` returns: the early-return at line 85 produces a
five-element tuple, the normal exit at line 152 a four-element tuple. -/
inductive SignalResult where
  | loading (status color msg : String) (flag : Bool) (extra : String)
  | outcome (status color alertMsg cardStyle : String)
deriving DecidableEq

/-- Number of components of the returned tuple. -/
def resultArity : SignalResult → ℕ
  | .loading _ _ _ _ _ => 5
  | .outcome _ _ _ _ => 4

/-- First component (the status label) of the returned tuple. -/
def statusOf : SignalResult → String
  | .loading s _ _ _ _ => s
  | .outcome s _ _ _ => s

/-- Number of variables the polling loop unpacks `get_signal`'s return value
into (v12.py line 190: `status, color, alert_msg, card_style = ...`). -/
def pollingUnpackCount : ℕ := 4

/-- `get_signal`'s return value plus the Telegram messages it sends as a side
effect (line 140). -/
structure SignalOutput where
  result : SignalResult
  sends : List String
deriving DecidableEq

/-- `get_signal(df, p_limit, v_limit, sym, use_breakout, use_macd_flip,
custom_alert_input)` (v12.py lines 84-152). -/
def get_signal (df : List Row) (p_limit v_limit : ℚ) (sym : List Char)
    (use_breakout use_macd_flip : Bool) (custom_alert_input : List Char) :
    SignalOutput :=
  if df.length < 10 then
    { result := .loading "⏳ 載入中" "#aaaaaa" "數據不足" false "", sends := [] }
  else
    let price := priceOf df
    let p_change := pChangeOf df
    let v_ratio := vRatioDf df
    let hc := check_custom_alerts sym price custom_alert_input
    let agg := aggStep hc.1 hc.2 p_change use_breakout
      (baseBull df p_limit v_limit) (isBreakHigh df use_breakout)
      (macdFlips df use_macd_flip).1
      (baseBear df p_limit v_limit) (isBreakLow df use_breakout)
      (macdFlips df use_macd_flip).2
    let sends := if agg.trigger then
        [send_telegram_msg_text (String.mk sym) agg.action
          (String.intercalate "\n" agg.reasons) price p_change v_ratio]
      else []
    let status0 : String :=
      if isBullTrend df then "🚀 做多"
      else if isBearTrend df then "🔻 做空"
      else "⚖️ 觀望"
    let color : String :=
      if isBullTrend df then "#00ff00"
      else if isBearTrend df then "#ff4b4b"
      else "#aaaaaa"
    let status := if agg.action ≠ "" then agg.action else status0
    let alert_msgs : List String :=
      (if hc.1 then ["🎯 價格達標"] else []) ++
      (if p_limit ≤ |p_change| then
        ["⚠️ 價異: " ++ fmtSignedFixed 2 p_change ++ "%"] else []) ++
      (if v_limit ≤ v_ratio then
        ["🔥 量爆: " ++ fmtFixed 1 v_ratio ++ "x"] else []) ++
      (if isBreakHigh df use_breakout || isBreakLow df use_breakout then
        ["📈 5K突破"] else []) ++
      (if (macdFlips df use_macd_flip).1 || (macdFlips df use_macd_flip).2 then
        ["⚡ MACD翻轉"] else [])
    let alert_msg := if alert_msgs.isEmpty then "正常"
      else String.intercalate "<br>" alert_msgs
    { result := .outcome status color alert_msg agg.card
      sends := sends }

/-- Total number of Telegram messages sent over a sequence of polling ticks,
each tick evaluating `get_signal` on that tick's dataframe (the `while True`
loop of v12.py lines 179-190 keeps no dispatch state between ticks). -/
def dispatchTicks (dfs : List (List Row)) (p v : ℚ) (sym : List Char)
    (bo mf : Bool) (inp : List Char) : ℕ :=
  (dfs.map (fun df => (get_signal df p v sym bo mf inp).sends.length)).sum

/-- Convert a string literal to the character list the parser model consumes. -/
def chars (s : String) : List Char := s.data

/-! ### Concrete test data -/

/-- Ten bars with steadily rising closes and constant volume: the trend/volume
rule and a `A>5` custom alert both fire on the last bar. -/
def bars10 : List Bar :=
  [⟨1,1,1,7⟩, ⟨2,2,2,7⟩, ⟨3,3,3,7⟩, ⟨4,4,4,7⟩, ⟨5,5,5,7⟩,
   ⟨6,6,6,7⟩, ⟨7,7,7,7⟩, ⟨8,8,8,7⟩, ⟨9,9,9,7⟩, ⟨10,10,10,7⟩]

/-- A two-bar history: far below the ten-bar gate of `get_signal`. -/
def twoBars : List Bar := [⟨1,1,1,1⟩, ⟨2,2,2,1⟩]

/-- Ten identical flat bars: no trend, no price change, no volume spike. -/
def barsFlat : List Bar := List.replicate 10 (⟨5,5,5,3⟩ : Bar)

/-- A row holding only a histogram value (all other columns zero). -/
def mkHistRow (h : ℚ) : Row := { row0 with hist := h }

/-- Eight rows whose histogram column is the specification's example window
`[-3, -2, -1, -0.5, -0.2, -0.1, -0.05, +0.1]`. -/
def df8 : List Row :=
  [mkHistRow (-3), mkHistRow (-2), mkHistRow (-1), mkHistRow (-1/2),
   mkHistRow (-1/5), mkHistRow (-1/10), mkHistRow (-1/20), mkHistRow (1/10)]

/-! ### Counterexample and code-bug theorems -/

/-- C1: refuted as stated.  On `bars10` the same alert condition (action
`🚀 強勢做多`, identical price-change bucket) fires on two consecutive polling
ticks with the condition continuously active in between, yet the loop sends a
Telegram message on each of the two ticks: two dispatches, not one — the code
keeps no dedup state at all. -/
theorem c1_dedup_counterexample :
    dispatchTicks (List.replicate 2 (fetch_data bars10)) 1 1 (chars "A")
        false false (chars "A>5") = 2 ∧
    (get_signal (fetch_data bars10) 1 1 (chars "A") false false
        (chars "A>5")).sends.length = 1 ∧
    (2 : ℕ) ≠ 1 := by
  exact ⟨by with_unfolding_all rfl, by with_unfolding_all rfl, by decide⟩

/-- C2: refuted as stated.  On `bars10` the custom price-level rule triggers
(`A>5` with price 10), but because the trend/volume evaluator also triggers,
the aggregation branch overwrites `action_type` with `🚀 強勢做多`: the
outcome's action type is not the dedicated price-level-hit label. -/
theorem c2_priority_counterexample :
    (check_custom_alerts (chars "A") (priceOf (fetch_data bars10))
        (chars "A>5")).1 = true ∧
    statusOf (get_signal (fetch_data bars10) 1 1 (chars "A") false false
        (chars "A>5")).result = "🚀 強勢做多" ∧
    ("🚀 強勢做多" : String) ≠ "🎯 價格觸達" := by
  exact ⟨by with_unfolding_all decide, by with_unfolding_all decide, by decide⟩

/-- C3: the claim is right and the code is wrong.  On a two-bar history the
early `len(df) < 10` branch returns a five-element tuple, but the polling
loop (v12.py line 190) unpacks the result into four variables, so consuming
a short history raises `ValueError` instead of completing with a loading
badge. -/
theorem c3_short_history_tuple_arity :
    resultArity (get_signal (fetch_data twoBars) 1 2 (chars "TSLA") false
        false []).result = 5 ∧
    resultArity (get_signal (fetch_data twoBars) 1 2 (chars "TSLA") false
        false []).result ≠ pollingUnpackCount := by
  exact ⟨by with_unfolding_all decide, by with_unfolding_all decide⟩

/-- C7: refuted as stated.  The entry `XTSLA升穿420` names the symbol XTSLA,
yet evaluated for ticker TSLA at price 430 it triggers, because `re.search`
finds `TSLA升穿420` as a substring of the entry. -/
theorem c7_substring_counterexample :
    check_custom_alerts (chars "TSLA") 430 (chars "XTSLA升穿420") =
      (true, "🎯 自定義價格預警: XTSLA升穿420 (現價:430.00)") := by
  with_unfolding_all decide

/-- C8: refuted as stated.  At concrete inputs the message built by
`send_telegram_msg` differs from the template the claim states: the code
prepends `🔔 【`, closes the action label with `】`, and prepends `📋 ` to the
reason header. -/
theorem c8_template_counterexample :
    send_telegram_msg_text "TSLA" "🚀 強勢做多" "r" 100 1 2 ≠
      claimedTemplate "TSLA" "🚀 強勢做多" "r" 100 1 2 := by
  with_unfolding_all decide

/-! ### Amended / confirmed general theorems -/

/-- C1 (amended): the code keeps no dedup state: over any number of polling
ticks on which the data (and hence the fired condition and its signature) is
identical, the number of Telegram dispatches is the number of ticks times the
per-tick dispatch count — an alert that stays continuously active is re-sent
on every tick, never suppressed. -/
theorem c1_resend_every_tick (df : List Row) (p v : ℚ) (sym : List Char)
    (bo mf : Bool) (inp : List Char) (n : ℕ) :
    dispatchTicks (List.replicate n df) p v sym bo mf inp =
      n * (get_signal df p v sym bo mf inp).sends.length := by
  induction n with
  | zero => simp [dispatchTicks]
  | succ k ih =>
    rw [List.replicate_succ]
    simp only [dispatchTicks, List.map_cons, List.sum_cons] at ih ⊢
    rw [ih]
    ring

/-- C7 (amended): the pattern search is unanchored: if the
symbol-operator-number pattern is found in an entry, it is still found after
prepending arbitrary characters (such as the `X` of a longer symbol name
containing the evaluated ticker), so exact symbol matching is not enforced. -/
theorem c7_unanchored_search (sym pre a : List Char)
    (h : (searchPat sym a).isSome = true) :
    (searchPat sym (pre ++ a)).isSome = true := by
  induction pre with
  | nil => simpa using h
  | cons c cs ih =>
    simp only [List.cons_append, searchPat]
    split
    · rfl
    · exact ih

/-- Witness for `c7_unanchored_search`: the pattern for ticker TSLA is found
in `TSLA升穿420`, hence also in `XTSLA升穿420`. -/
theorem c7_unanchored_search_witness :
    (searchPat (chars "TSLA") (chars "X" ++ chars "TSLA升穿420")).isSome =
      true :=
  c7_unanchored_search (chars "TSLA") (chars "X") (chars "TSLA升穿420")
    (by with_unfolding_all decide)

/-- Helper: `emaFrom` preserves length. -/
theorem emaFrom_length (a p : ℚ) (xs : List ℚ) :
    (emaFrom a p xs).length = xs.length := by
  induction xs generalizing p with
  | nil => rfl
  | cons x xs ih => simp [emaFrom, ih]

/-- Helper: `ema` is aligned one-to-one with its input series. -/
theorem ema_length (span : ℕ) (xs : List ℚ) :
    (ema span xs).length = xs.length := by
  cases xs with
  | nil => rfl
  | cons x rest => simp [ema, emaFrom_length]

/-- Helper: `emaFrom` processes an appended suffix from the last smoothed
value of the first part. -/
theorem emaFrom_append (a p : ℚ) (xs ys : List ℚ) :
    emaFrom a p (xs ++ ys) =
      emaFrom a p xs ++ emaFrom a ((emaFrom a p xs).getLastD p) ys := by
  induction xs generalizing p with
  | nil => rfl
  | cons x xs ih =>
    simp only [List.cons_append, emaFrom, List.getLastD_cons]
    exact congrArg _ (ih (emaStep a p x))

/-- Helper: appending future bars does not change already-computed EMA
values. -/
theorem ema_take_append (span : ℕ) (xs ys : List ℚ) :
    (ema span (xs ++ ys)).take xs.length = ema span xs := by
  cases xs with
  | nil => simp [ema]
  | cons x rest =>
    simp only [List.cons_append, ema, emaFrom_append, List.length_cons,
      List.take_succ_cons]
    rw [List.take_left' (emaFrom_length _ _ _)]

/-- Helper: each `emaFrom` value after the first is one `emaStep` of its
predecessor. -/
theorem emaFrom_getD_succ (a p : ℚ) (xs : List ℚ) (i : ℕ)
    (h : i + 1 < xs.length) :
    (emaFrom a p xs).getD (i + 1) 0 =
      emaStep a ((emaFrom a p xs).getD i 0) (xs.getD (i + 1) 0) := by
  induction xs generalizing p i with
  | nil => simp at h
  | cons x xs ih =>
    cases i with
    | zero =>
      cases xs with
      | nil => simp at h
      | cons y ys => simp [emaFrom]
    | succ j =>
      simp only [emaFrom, List.getD_cons_succ]
      exact ih (emaStep a p x) j (by simpa using h)

/-- Helper: the EMA recursion at the level of `ema span`. -/
theorem ema_getD_succ (span : ℕ) (xs : List ℚ) (i : ℕ)
    (h : i + 1 < xs.length) :
    (ema span xs).getD (i + 1) 0 =
      (ema span xs).getD i 0 * (1 - 2 / ((span : ℚ) + 1)) +
        xs.getD (i + 1) 0 * (2 / ((span : ℚ) + 1)) := by
  cases xs with
  | nil => simp at h
  | cons x rest =>
    cases i with
    | zero =>
      cases rest with
      | nil => simp at h
      | cons y ys => simp [ema, emaFrom, emaStep]
    | succ j =>
      have h2 : j + 1 < rest.length := by simpa using h
      simp only [ema, List.getD_cons_succ]
      rw [emaFrom_getD_succ _ _ _ _ h2]
      rfl

/-- C5: each EMA value follows the unadjusted recursion seeded with the first
close (`value[0] = close[0]`, `value[i] = value[i-1]*(1-α) + close[i]*α`,
`α = 2/(span+1)`), and the EMA column is stable under extending the history:
computing on `xs ++ ys` reproduces the values on `xs` exactly. -/
theorem c5_ema_recursion_and_stability (span : ℕ) (xs ys : List ℚ)
    (hx : xs ≠ []) :
    (ema span xs).length = xs.length ∧
    (ema span xs).getD 0 0 = xs.getD 0 0 ∧
    (∀ i, i + 1 < xs.length →
      (ema span xs).getD (i + 1) 0 =
        (ema span xs).getD i 0 * (1 - 2 / ((span : ℚ) + 1)) +
          xs.getD (i + 1) 0 * (2 / ((span : ℚ) + 1))) ∧
    (ema span (xs ++ ys)).take xs.length = ema span xs := by
  refine ⟨ema_length span xs, ?_, fun i h => ema_getD_succ span xs i h,
    ema_take_append span xs ys⟩
  cases xs with
  | nil => exact absurd rfl hx
  | cons x rest => simp [ema]

/-- Witness for `c5_ema_recursion_and_stability` at `span = 20`,
`xs = [1, 3]`, `ys = [2]`. -/
theorem c5_ema_witness :
    (ema 20 ([1, 3] ++ [2])).take 2 = ema 20 [1, 3] ∧
    (ema 20 [1, 3]).getD (0 + 1) 0 =
      (ema 20 [1, 3]).getD 0 0 * (1 - 2 / ((20 : ℚ) + 1)) +
        ([1, 3] : List ℚ).getD (0 + 1) 0 * (2 / ((20 : ℚ) + 1)) :=
  ⟨(c5_ema_recursion_and_stability 20 [1, 3] [2] (List.cons_ne_nil 1 [3])).2.2.2,
   (c5_ema_recursion_and_stability 20 [1, 3] [2] (List.cons_ne_nil 1 [3])).2.2.1
     0 (by decide)⟩

/-- Helper: `all` of a decidable predicate over `dropLast` is the predicate
at every index but the last. -/
theorem all_dropLast_iff (p : ℚ → Prop) [DecidablePred p] (w : List ℚ) :
    (w.dropLast.all fun x => decide (p x)) = true ↔
      ∀ i, i + 1 < w.length → p (w.getD i 0) := by
  induction w with
  | nil => simp
  | cons x xs ih =>
    cases xs with
    | nil => simp
    | cons y ys =>
      rw [List.dropLast_cons₂, List.all_cons, Bool.and_eq_true,
        decide_eq_true_eq, ih]
      constructor
      · rintro ⟨h0, hrest⟩ i hi
        cases i with
        | zero => simpa using h0
        | succ j => simpa using hrest j (by simpa using hi)
      · intro hall
        exact ⟨by simpa using hall 0 (by simp),
          fun j hj => by simpa using hall (j + 1) (by simpa using hj)⟩

/-- Helper: `getLastD` is `getD` at the last index for non-empty lists. -/
theorem getLastD_eq_getD (w : List ℚ) :
    ∀ d, w ≠ [] → w.getLastD d = w.getD (w.length - 1) 0 := by
  induction w with
  | nil => intro d h; exact absurd rfl h
  | cons x xs ih =>
    intro d h
    cases xs with
    | nil => rfl
    | cons y ys =>
      rw [List.getLastD_cons, ih x (List.cons_ne_nil y ys)]
      simp [List.getD_cons_succ]

/-- Helper: the trailing eight-value histogram window has length 8 whenever
the dataframe has at least 8 rows. -/
theorem histWindow_length (df : List Row) (h8 : 8 ≤ df.length) :
    (histWindowOf df).length = 8 := by
  simp only [histWindowOf, List.length_drop, List.length_map]
  omega

/-- C4: with the MACD-flip rule enabled on a history of at least 8 bars, the
bullish flip fires exactly when all of the first 7 values of the trailing
8-value histogram window are strictly negative and the 8th is strictly
positive, and the bearish flip exactly in the mirrored case; a zero anywhere
in the first 7 refutes both strict conditions. -/
theorem c4_macd_flip_characterization (df : List Row) (h8 : 8 ≤ df.length) :
    macdFlips df true =
      (macdBullFlip (histWindowOf df), macdBearFlip (histWindowOf df)) ∧
    (macdBullFlip (histWindowOf df) = true ↔
      (∀ i < 7, (histWindowOf df).getD i 0 < 0) ∧
        0 < (histWindowOf df).getD 7 0) ∧
    (macdBearFlip (histWindowOf df) = true ↔
      (∀ i < 7, 0 < (histWindowOf df).getD i 0) ∧
        (histWindowOf df).getD 7 0 < 0) := by
  have hw : (histWindowOf df).length = 8 := histWindow_length df h8
  have hne : histWindowOf df ≠ [] := by
    intro hempty
    rw [hempty] at hw
    simp at hw
  have hlast : (histWindowOf df).getLastD 0 =
      (histWindowOf df).getD 7 0 := by
    rw [getLastD_eq_getD _ 0 hne, hw]
  refine ⟨by simp [macdFlips, h8], ?_, ?_⟩
  · rw [macdBullFlip, Bool.and_eq_true, decide_eq_true_eq, hlast,
      all_dropLast_iff (fun x => x < 0), hw]
    constructor
    · rintro ⟨ha, hb⟩
      exact ⟨fun i hi => ha i (by omega), hb⟩
    · rintro ⟨ha, hb⟩
      exact ⟨fun i hi => ha i (by omega), hb⟩
  · rw [macdBearFlip, Bool.and_eq_true, decide_eq_true_eq, hlast,
      all_dropLast_iff (fun x => 0 < x), hw]
    constructor
    · rintro ⟨ha, hb⟩
      exact ⟨fun i hi => ha i (by omega), hb⟩
    · rintro ⟨ha, hb⟩
      exact ⟨fun i hi => ha i (by omega), hb⟩

/-- Witness for `c4_macd_flip_characterization`: the specification's example
window `[-3, -2, -1, -0.5, -0.2, -0.1, -0.05, +0.1]` triggers the bullish
flip. -/
theorem c4_macd_flip_witness : macdBullFlip (histWindowOf df8) = true :=
  (c4_macd_flip_characterization df8 (by decide)).2.1.mpr
    ⟨by with_unfolding_all decide, by with_unfolding_all decide⟩

/-- Helper: the early-return loop of `check_custom_alerts` is the first hit
of `entryCheck` over the split entries. -/
theorem checkLoop_eq_findSome (sym : List Char) (price : ℚ)
    (es : List (List Char)) :
    checkLoop sym price es =
      match es.findSome? (entryCheck sym price) with
      | some r => (true, r)
      | none => (false, "") := by
  induction es with
  | nil => rfl
  | cons a rest ih =>
    simp only [checkLoop, List.findSome?_cons]
    cases entryCheck sym price a <;> simp [ih]

/-- Helper: the pattern never matches inside the empty entry. -/
theorem matchPatAt_nil (sym : List Char) : matchPatAt sym [] = none := by
  cases sym with
  | nil => rfl
  | cons c cs => rfl

/-- Helper: on an entry whose normalised text contains the pattern, the entry
triggers exactly under the inclusive price comparison dictated by the parsed
operator, with the reason string embedding the normalised entry text and the
formatted current price. -/
theorem entryCheck_eq (sym : List Char) (price : ℚ) (a : List Char)
    (op : AlertOp) (t : ℚ)
    (hsp : searchPat sym (upperChars (stripChars a)) = some (op, t)) :
    entryCheck sym price a =
      if ((op = AlertOp.gt ∨ op = AlertOp.riseThru) ∧ t ≤ price) ∨
         ((op = AlertOp.lt ∨ op = AlertOp.fallThru) ∧ price ≤ t) then
        some ("🎯 自定義價格預警: " ++ String.mk (upperChars (stripChars a)) ++
              " (現價:" ++ fmtFixed 2 price ++ ")")
      else none := by
  have hA : (upperChars (stripChars a)).isEmpty = false := by
    cases hA2 : upperChars (stripChars a) with
    | nil =>
      rw [hA2] at hsp
      rw [searchPat, matchPatAt_nil] at hsp
      exact absurd hsp (by simp)
    | cons c cs => rfl
  simp only [entryCheck, hA, hsp, Bool.false_eq_true, if_false]

/-- C6: `check_custom_alerts` returns the verdict of the first entry (in text
order) whose pattern matches and whose inclusive comparison holds — exactly
one custom match is ever reported — and a parsed crosses-above entry triggers
exactly when `target ≤ price`, a crosses-below entry exactly when
`price ≤ target`, with the reason embedding the matched entry text and the
current price. -/
theorem c6_custom_alert_first_match (sym : List Char) (price : ℚ)
    (s : List Char) :
    (check_custom_alerts sym price s =
      match (splitEntries s).findSome? (entryCheck sym price) with
      | some r => (true, r)
      | none => (false, "")) ∧
    (∀ a op t, searchPat sym (upperChars (stripChars a)) = some (op, t) →
      entryCheck sym price a =
        if ((op = AlertOp.gt ∨ op = AlertOp.riseThru) ∧ t ≤ price) ∨
           ((op = AlertOp.lt ∨ op = AlertOp.fallThru) ∧ price ≤ t) then
          some ("🎯 自定義價格預警: " ++
                String.mk (upperChars (stripChars a)) ++ " (現價:" ++
                fmtFixed 2 price ++ ")")
        else none) :=
  ⟨checkLoop_eq_findSome sym price (splitEntries s),
   fun a op t hsp => entryCheck_eq sym price a op t hsp⟩

/-- Witness for `c6_custom_alert_first_match`: the specification's boundary
example — `TSLA>420` at price exactly 420 triggers (inclusive bound), the
reason embeds the matched entry text and the formatted price, and the single
entry is the first (and only) match reported. -/
theorem c6_custom_alert_witness :
    check_custom_alerts (chars "TSLA") 420 (chars "TSLA>420") =
      (true, "🎯 自定義價格預警: TSLA>420 (現價:420.00)") := by
  have _h2 := (c6_custom_alert_first_match (chars "TSLA") 420
    (chars "TSLA>420")).2 (chars "TSLA>420") AlertOp.gt 420
    (by with_unfolding_all decide)
  rw [(c6_custom_alert_first_match (chars "TSLA") 420 (chars "TSLA>420")).1]
  with_unfolding_all decide

/-- Helper: `fetch_data` aligns rows one-to-one with the downloaded bars. -/
theorem fetch_data_length (bars : List Bar) :
    (fetch_data bars).length = bars.length := by
  simp [fetch_data]

/-- Helper: indexing into the assembled dataframe. -/
theorem fetch_getD (bars : List Bar) (i : ℕ) (h : i < bars.length) :
    (fetch_data bars).getD i row0 = rowAt bars i := by
  rw [fetch_data, List.getD_eq_getElem?_getD, List.getElem?_map,
    List.getElem?_range h]
  rfl

/-- Helper: indexing into a rolling mean column. -/
theorem rollingMean_getD (w : ℕ) (xs : List ℚ) (i : ℕ) (h : i < xs.length) :
    (rollingMean w xs).getD i none =
      (if i + 1 < w then none
       else some ((((xs.take (i + 1)).drop (i + 1 - w)).sum) / (w : ℚ))) := by
  rw [rollingMean, List.getD_eq_getElem?_getD, List.getElem?_map,
    List.getElem?_range h]
  rfl

/-- Helper: the last row of the assembled dataframe. -/
theorem lastRow_fetch (bars : List Bar) (h : bars ≠ []) :
    lastRow (fetch_data bars) = rowAt bars (bars.length - 1) := by
  rw [lastRow, fetch_data_length]
  exact fetch_getD bars (bars.length - 1)
    (Nat.sub_lt (List.length_pos.mpr h) Nat.one_pos)

/-- C9: on any evaluated history of at least 2 bars, the volume ratio equals
the latest volume divided by the trailing 20-bar volume average when that
average exists and is strictly positive, and is exactly 1 when the average is
undefined (fewer than 20 bars) or zero — the division is never taken on a
zero or missing denominator. -/
theorem c9_volume_ratio_default (bars : List Bar) (h2 : 2 ≤ bars.length) :
    (bars.length < 20 →
      (lastRow (fetch_data bars)).volAvg = none ∧
      vRatioDf (fetch_data bars) = 1) ∧
    (20 ≤ bars.length →
      (lastRow (fetch_data bars)).volAvg =
        some (((bars.map Bar.volume).drop (bars.length - 20)).sum / 20) ∧
      (0 < ((bars.map Bar.volume).drop (bars.length - 20)).sum / 20 →
        vRatioDf (fetch_data bars) =
          (lastRow (fetch_data bars)).volume /
            (((bars.map Bar.volume).drop (bars.length - 20)).sum / 20)) ∧
      (((bars.map Bar.volume).drop (bars.length - 20)).sum / 20 = 0 →
        vRatioDf (fetch_data bars) = 1)) := by
  have hne : bars ≠ [] := by
    intro he
    rw [he] at h2
    simp at h2
  have hn1 : bars.length - 1 + 1 = bars.length := by omega
  have htake : (bars.map Bar.volume).take bars.length = bars.map Bar.volume := by
    rw [← List.length_map bars Bar.volume]
    exact List.take_length _
  have hva : (lastRow (fetch_data bars)).volAvg =
      (if bars.length < 20 then none
       else some (((bars.map Bar.volume).drop (bars.length - 20)).sum /
         (20 : ℚ))) := by
    rw [lastRow_fetch bars hne]
    show (rollingMean 20 (bars.map Bar.volume)).getD (bars.length - 1) none = _
    rw [rollingMean_getD 20 (bars.map Bar.volume) (bars.length - 1)
      (by simp; omega)]
    rw [hn1, htake]
    norm_num
  constructor
  · intro hlt
    have hv1 : (lastRow (fetch_data bars)).volAvg = none := by
      rw [hva, if_pos hlt]
    refine ⟨hv1, ?_⟩
    rw [vRatioDf, hv1]
    rfl
  · intro hge
    have hv2 : (lastRow (fetch_data bars)).volAvg =
        some (((bars.map Bar.volume).drop (bars.length - 20)).sum / 20) := by
      rw [hva, if_neg (by omega)]
    refine ⟨hv2, ?_, ?_⟩
    · intro hpos
      rw [vRatioDf, hv2]
      simp only [vRatioOf]
      rw [if_pos hpos]
    · intro hzero
      rw [vRatioDf, hv2]
      simp only [vRatioOf]
      rw [if_neg (by rw [hzero]; exact lt_irrefl 0)]

/-- Witness for `c9_volume_ratio_default`: on a two-bar history the rolling
average is undefined and the ratio is exactly 1. -/
theorem c9_volume_ratio_witness : vRatioDf (fetch_data twoBars) = 1 :=
  ((c9_volume_ratio_default twoBars (by decide)).1 (by decide)).2

/-- Helper: the MACD line is aligned with the close series. -/
theorem macdOf_length (closes : List ℚ) :
    (macdOf closes).length = closes.length := by
  simp [macdOf, ema_length]

/-- Helper: the signal line is aligned with the close series. -/
theorem sigOf_length (closes : List ℚ) :
    (sigOf closes).length = closes.length := by
  simp [sigOf, ema_length, macdOf_length]

/-- Helper: the histogram is aligned with the close series. -/
theorem histOf_length (closes : List ℚ) :
    (histOf closes).length = closes.length := by
  simp [histOf, macdOf_length, sigOf_length]

/-- C10: MACD line, signal line and histogram carry a (defined) value at
every bar position — each derived column has exactly one entry per bar,
including the very first, since every contributing EMA is seeded from the
first value; consequently on a history of at least 8 bars the trailing
8-value histogram window contains exactly 8 defined entries. -/
theorem c10_macd_defined_everywhere (bars : List Bar) (_hbars : bars ≠ []) :
    (macdOf (bars.map Bar.close)).length = bars.length ∧
    (sigOf (bars.map Bar.close)).length = bars.length ∧
    (histOf (bars.map Bar.close)).length = bars.length ∧
    (fetch_data bars).length = bars.length ∧
    (8 ≤ bars.length → (histWindowOf (fetch_data bars)).length = 8) := by
  refine ⟨by simp [macdOf_length], by simp [sigOf_length],
    by simp [histOf_length], fetch_data_length bars,
    fun h8 => histWindow_length _ (by rw [fetch_data_length]; exact h8)⟩

/-- Witness for `c10_macd_defined_everywhere`: on the ten-bar history the
trailing histogram window examined by the flip rule has exactly 8 entries. -/
theorem c10_macd_defined_witness :
    (histWindowOf (fetch_data bars10)).length = 8 :=
  (c10_macd_defined_everywhere bars10 (by decide)).2.2.2.2 (by decide)

/-- Helper: the action label after aggregation — the bullish branch, then the
bearish branch, overwrite the custom price-level label set beforehand. -/
theorem aggStep_action (hit : Bool) (creason : String) (pch : ℚ) (bo : Bool)
    (bB bH mB bR bL mS : Bool) :
    (aggStep hit creason pch bo bB bH mB bR bL mS).action =
      if bB || (bo && bH) || mB then "🚀 強勢做多"
      else if bR || (bo && bL) || mS then "🔻 強勢做空"
      else if hit then "🎯 價格觸達" else "" := by
  simp only [aggStep]
  split_ifs <;> rfl

/-- C2 (amended): when the custom price-level rule triggers on an evaluated
history, the outcome's action type is the dedicated price-level-hit label
only if no other evaluator fires; a bullish-class trigger (trend/volume,
breakout high, or bullish MACD flip) overwrites it with the strong-bullish
label, and otherwise a bearish-class trigger overwrites it with the
strong-bearish label. -/
theorem c2_action_override (df : List Row) (p v : ℚ) (sym : List Char)
    (bo mf : Bool) (inp : List Char) (hL : ¬ df.length < 10)
    (hc : (check_custom_alerts sym (priceOf df) inp).1 = true) :
    statusOf (get_signal df p v sym bo mf inp).result =
      (if bullTrigger df p v bo mf then "🚀 強勢做多"
       else if bearTrigger df p v bo mf then "🔻 強勢做空"
       else "🎯 價格觸達") := by
  simp only [get_signal, bullTrigger, bearTrigger]
  rw [if_neg hL]
  simp only [statusOf, aggStep_action, hc, if_true]
  split_ifs with h1 h2 h3 <;> simp_all

/-- Witness for `c2_action_override`: on a flat ten-bar history where only
the custom rule `A>1` fires, the action type is the price-level-hit label. -/
theorem c2_action_override_witness :
    statusOf (get_signal (fetch_data barsFlat) 1 1 (chars "A") false false
      (chars "A>1")).result = "🎯 價格觸達" := by
  have h := c2_action_override (fetch_data barsFlat) 1 1 (chars "A") false
    false (chars "A>1") (by with_unfolding_all decide)
    (by with_unfolding_all decide)
  rw [h]
  with_unfolding_all decide

/-- C8 (amended): every dispatched notification text equals the literal
template `🔔 【{action}預警】: {symbol} ... 📋 判定根據: ...` — the spec's
template with the bell emoji and 【】 brackets around the action label and
📋 before the reason header restored. -/
theorem c8_message_template (sym action reason : String)
    (price p_change v_ratio : ℚ) :
    send_telegram_msg_text sym action reason price p_change v_ratio =
      "🔔 【" ++ (action ++ ("預警】: " ++ (sym ++ ("\n現價: " ++
        (fmtFixed 2 price ++ (" (" ++ (fmtSignedFixed 2 p_change ++
        ("%)\n量比: " ++ (fmtFixed 1 v_ratio ++
        ("x\n--------------------\n📋 判定根據:\n" ++ reason)))))))))) := by
  simp only [send_telegram_msg_text, String.append_assoc]
  rfl

end TrendV12
